/-
  Verification of modules/llamacpp_model.py: backend resolution, cache
  capacity parsing, prompt truncation, the streaming generation loop with
  cooperative cancellation, and the streaming adapter.

  Shallow embedding conventions:
  - Python modules selected by the resolver are represented by the enum
    `Variant`; a module-level global that can be `None` is an `Option Variant`.
  - The outcome of each optional import (lines 16-32 of the source) is a
    boolean field of `ImportEnv`; `hwAccel` stands for
    `torch.cuda.is_available() and not torch.version.hip`.
  - A model file path passed to `llama_cpp_lib` is represented by what the
    external detector `is_gguf` would return on it (`Option Bool`; `none`
    models calling the function without a path).
-/
import Mathlib

namespace LlamaCpp

/-- The four engine module variants the source can select between:
`llama_cpp` (CPU, modern GGUF format), `llama_cpp_ggml` (CPU, legacy
format), `llama_cpp_cuda` (accelerated, modern), `llama_cpp_ggml_cuda`
(accelerated, legacy). -/
inductive Variant where
  | cpuModern
  | cpuLegacy
  | accelModern
  | accelLegacy
deriving DecidableEq, Repr

/-- Outcome of the module-level imports at lines 14-32: whether CUDA
hardware is usable (`torch.cuda.is_available() and not torch.version.hip`)
and whether each optional import succeeds. The unconditional
`import llama_cpp` at line 14 has no flag: if it failed the whole module
would fail to load. -/
structure ImportEnv where
  hwAccel : Bool
  ggmlLoads : Bool
  cudaLoads : Bool
  ggmlCudaLoads : Bool
deriving DecidableEq, Repr

/-- Line 14: `import llama_cpp`. -/
def llama_cpp : Variant := .cpuModern

/-- Lines 16-19: `try: import llama_cpp_ggml except: llama_cpp_ggml = llama_cpp`. -/
def llama_cpp_ggml (e : ImportEnv) : Variant :=
  if e.ggmlLoads then .cpuLegacy else llama_cpp

/-- Lines 21-25 and 30-31: `llama_cpp_cuda` is the accelerated modern module
when the hardware check passes and the import succeeds, else `None`. -/
def llama_cpp_cuda (e : ImportEnv) : Option Variant :=
  if e.hwAccel && e.cudaLoads then some .accelModern else none

/-- Lines 26-29 and 32: `llama_cpp_ggml_cuda` is the accelerated legacy module
when the hardware check passes and its import succeeds; on import failure it
falls back to the value of `llama_cpp_cuda`; without hardware it is `None`. -/
def llama_cpp_ggml_cuda (e : ImportEnv) : Option Variant :=
  if e.hwAccel then
    (if e.ggmlCudaLoads then some .accelLegacy else llama_cpp_cuda e)
  else none

/-- Lines 35-40: `llama_cpp_lib(model_file=None)`. `model_file` is modelled
by what `is_gguf` would return on it; `none` models the call without a path
(line 36 then defaults `gguf_model` to `True`). `cpuFlag` is
`shared.args.cpu`. The Python returns a module variable that may be `None`,
hence the `Option Variant` result. -/
def llama_cpp_lib (e : ImportEnv) (cpuFlag : Bool) (model_file : Option Bool) : Option Variant :=
  let gguf_model := match model_file with
    | none => true
    | some b => b
  if cpuFlag || llama_cpp_cuda e = none then
    some (if gguf_model then llama_cpp else llama_cpp_ggml e)
  else
    if gguf_model then llama_cpp_cuda e else llama_cpp_ggml_cuda e

/-- Whether the dispatch at line 37 takes the accelerated branch: the cpu
flag is off and the accelerated modern module loaded. -/
def acceleratedActive (e : ImportEnv) (cpuFlag : Bool) : Bool :=
  !cpuFlag && (e.hwAccel && e.cudaLoads)

/-- The resolution table the code actually implements, written out as a
function of the branch gate and the format family. -/
def codeResolution (e : ImportEnv) (cpuFlag : Bool) (gguf : Bool) : Variant :=
  if acceleratedActive e cpuFlag then
    if gguf then .accelModern
    else if e.ggmlCudaLoads then .accelLegacy else .accelModern
  else
    if gguf then .cpuModern
    else if e.ggmlLoads then .cpuLegacy else .cpuModern

/-- Modelled from the spec: the resolution table of spec section 4.1 exactly
as the claim states it, keyed on (accelerated available and not disabled,
format family), with the fallbacks the table mentions: modern falls back to
CPU-modern when the accelerated module failed to load; legacy falls back to
accelerated-modern, then CPU-legacy. -/
def specResolution (accelAvailable : Bool) (gguf : Bool)
    (cudaLoads : Bool) (ggmlCudaLoads : Bool) : Variant :=
  if accelAvailable then
    if gguf then
      (if cudaLoads then .accelModern else .cpuModern)
    else
      (if ggmlCudaLoads then .accelLegacy
       else if cudaLoads then .accelModern else .cpuLegacy)
  else
    if gguf then .cpuModern else .cpuLegacy

/-- Line 119: inside `generate`, `llama_cpp_lib()` is called without a model
file, so the logits-processor container class is always taken from this
module. -/
def generateLogitsLib (e : ImportEnv) (cpuFlag : Bool) : Option Variant :=
  llama_cpp_lib e cpuFlag none

/-- Substring containment over character lists, modelling the Python
`in` operator on strings at lines 64 and 66. -/
def containsSub : List Char → List Char → Bool
  | [], needle => needle.isEmpty
  | h :: t, needle => needle.isPrefixOf (h :: t) || containsSub t needle

/-- `re.sub('[a-zA-Z]', '', s)` at lines 65 and 67: remove the ASCII
letters from the string. -/
def stripAlpha (s : String) : String :=
  ⟨s.data.filter (fun c => !c.isAlpha)⟩

/-- The numeric value of a run of decimal digit characters, most
significant first. -/
def digitsVal (cs : List Char) : Nat :=
  cs.foldl (fun a c => 10 * a + (c.toNat - 48)) 0

/-- A nonempty all-digit character run parsed to its value, else `none`. -/
def parseNatDigits (cs : List Char) : Option Nat :=
  if cs ≠ [] ∧ cs.all Char.isDigit then some (digitsVal cs) else none

/-- Python `int(s)` on the strings this module feeds it: an optional sign
followed by one or more decimal digits; anything else raises `ValueError`,
modelled as `none`. -/
def pyInt (s : String) : Option Int :=
  match s.data with
  | [] => none
  | c :: rest =>
    if c = '-' then (parseNatDigits rest).map (fun n => -(n : Int))
    else if c = '+' then (parseNatDigits rest).map (fun n => (n : Int))
    else (parseNatDigits (c :: rest)).map (fun n => (n : Int))

/-- Lines 62-69 of `from_pretrained`: `cache_capacity` starts at 0; when
`shared.args.cache_capacity` is not `None`, a string containing `GiB` is
stripped of letters, parsed as an integer and scaled by 1000^3, a string
containing `MiB` likewise scaled by 1000^2, and anything else is passed to
`int` directly. A failing `int` call (`ValueError`) is modelled as `none`. -/
def parse_cache_capacity : Option String → Option Int
  | none => some 0
  | some s =>
    if containsSub s.data ['G', 'i', 'B'] then
      (pyInt (stripAlpha s)).map (fun n => n * (1000 * 1000 * 1000))
    else if containsSub s.data ['M', 'i', 'B'] then
      (pyInt (stripAlpha s)).map (fun n => n * (1000 * 1000))
    else pyInt s

/-- A logit value: the backend's scores, with the distinguished value
`float('-inf')` that line 44 writes. -/
inductive Logit where
  | negInf
  | val (q : ℚ)
deriving DecidableEq

/-- Lines 43-45: `ban_eos_logits_processor(eos_token, input_ids, logits)`
overwrites the entry at `eos_token` with `-inf` and returns the logits. -/
def ban_eos_logits_processor (eos_token : Nat) (input_ids : List Int)
    (logits : List Logit) : List Logit :=
  let _ := input_ids
  logits.set eos_token .negInf

/-- The generation-state fields `generate` reads (lines 128-142). -/
structure GenState where
  max_new_tokens : Nat
  temperature : ℚ
  top_p : ℚ
  top_k : Nat
  repetition_penalty : ℚ
  tfs : ℚ
  mirostat_mode : Nat
  mirostat_tau : ℚ
  mirostat_eta : ℚ
  ban_eos_token : Bool

/-- The keyword arguments of the backend's `create_completion` call at
lines 128-143, including which module the logits-processor container class
was taken from (line 119). -/
structure CompletionRequest where
  lpsModule : Option Variant
  prompt : String
  max_tokens : Nat
  temperature : ℚ
  top_p : ℚ
  top_k : Nat
  repeat_penalty : ℚ
  tfs_z : ℚ
  mirostat_mode : Nat
  mirostat_tau : ℚ
  mirostat_eta : ℚ
  stream : Bool
  logits_processor : Option (List (List Int → List Logit → List Logit))

/-- The backend model object the handle owns: tokenize/detokenize, the
end-of-sequence token id, and the streaming completion primitive, which for
a request yields a stream of chunks, each represented by the string
`chunk['choices'][0]['text']` extracted at line 149. -/
structure ModelLike where
  tokenize : String → List Int
  detokenize : List Int → String
  token_eos : Nat
  create_completion : CompletionRequest → List String

/-- Python `xs[-n:]` for a nonnegative `n`, the truncation at line 125:
for `n = 0` the slice bound `-0` equals `0`, so the WHOLE list is kept;
for `n ≥ 1` the last `min n (length xs)` elements are kept. -/
def sliceLastN (xs : List Int) (n : Nat) : List Int :=
  if n = 0 then xs else xs.drop (xs.length - n)

/-- Lines 119-143: the request `generate` sends to
`self.model.create_completion`. `maxPromptLen` is the value of the external
`get_max_prompt_length(state)`; the prompt is encoded, truncated with
`prompt[-maxPromptLen:]` and decoded back (lines 124-126). -/
def generateRequest (e : ImportEnv) (cpuFlag : Bool) (m : ModelLike)
    (state : GenState) (maxPromptLen : Nat) (prompt : String) : CompletionRequest :=
  { lpsModule := generateLogitsLib e cpuFlag
    prompt := m.detokenize (sliceLastN (m.tokenize prompt) maxPromptLen)
    max_tokens := state.max_new_tokens
    temperature := state.temperature
    top_p := state.top_p
    top_k := state.top_k
    repeat_penalty := state.repetition_penalty
    tfs_z := state.tfs
    mirostat_mode := state.mirostat_mode
    mirostat_tau := state.mirostat_tau
    mirostat_eta := state.mirostat_eta
    stream := true
    logits_processor :=
      if state.ban_eos_token then some [ban_eos_logits_processor m.token_eos]
      else none }

/-- Concatenation of the consumed chunk texts, the `output` accumulator of
lines 145-154. -/
def joinChunks (l : List String) : String :=
  l.foldr (fun a b => a ++ b) ""

/-- Lines 145-153: the consumption loop. `stopAt i` is the value the shared
flag `shared.stop_everything` has when it is read at the top of iteration
`i` (0-indexed, i.e. after `i` chunks have been consumed). The result is
the accumulated output together with the list of texts passed to the
optional callback, in call order. -/
def generateLoop (stopAt : Nat → Bool) : Nat → List String → String × List String
  | _, [] => ("", [])
  | i, text :: rest =>
    if stopAt i then ("", [])
    else
      let r := generateLoop stopAt (i + 1) rest
      (text ++ r.1, text :: r.2)

/-- Lines 117-154: `generate(prompt, state, callback)`. Returns the final
output string and the callback trace. -/
def generate (e : ImportEnv) (cpuFlag : Bool) (m : ModelLike) (state : GenState)
    (maxPromptLen : Nat) (stopAt : Nat → Bool) (prompt : String) : String × List String :=
  generateLoop stopAt 0 (m.create_completion (generateRequest e cpuFlag m state maxPromptLen prompt))

/-- Lines 156-161 seen from the consumer: given the successive `token`
values pulled from the wrapped generator, yield the running `reply`
accumulator after each one. -/
def streamReplies (reply : String) : List String → List String
  | [] => []
  | tok :: rest => (reply ++ tok) :: streamReplies (reply ++ tok) rest

/-- Modelled from the spec for the missing `modules.callbacks.Iteratorize`:
it turns the push-style `generate` into a pull-style sequence whose pulled
items are exactly the texts `generate` hands to its callback, in order.
`generate_with_streaming` (lines 156-161) then yields the cumulative
`reply` after each pulled token. -/
def generate_with_streaming (e : ImportEnv) (cpuFlag : Bool) (m : ModelLike)
    (state : GenState) (maxPromptLen : Nat) (stopAt : Nat → Bool)
    (prompt : String) : List String :=
  streamReplies "" (generate e cpuFlag m state maxPromptLen stopAt prompt).2

/-- Lines 48-53: the handle. `initialized` is set to `False` at
construction and never read again; `modelDels` counts how many times
`self.model.__del__()` has been invoked on the owned backend object. -/
structure LlamaCppModel where
  initialized : Bool
  modelDels : Nat
deriving DecidableEq, Repr

/-- Line 49-50: `__init__`. -/
def LlamaCppModel.init : LlamaCppModel :=
  { initialized := false, modelDels := 0 }

/-- Lines 52-53: `__del__` unconditionally calls `self.model.__del__()`,
with no guard against running more than once. -/
def LlamaCppModel.del (h : LlamaCppModel) : LlamaCppModel :=
  { h with modelDels := h.modelDels + 1 }

/-- The character for a decimal digit `d < 10`. -/
def digitChar (d : Nat) : Char := Char.ofNat (48 + d)

/-- Fuel-driven most-significant-first decimal digits of a natural number;
any fuel above the digit count gives the true digit string. -/
def natDigitsAux : Nat → Nat → List Char
  | 0, _ => []
  | fuel + 1, n =>
    if n < 10 then [digitChar n]
    else natDigitsAux fuel (n / 10) ++ [digitChar (n % 10)]

/-- The decimal digit string of a natural number (`n + 1` fuel always
suffices, since `n` has at most `n + 1` digits). -/
def natDigits (n : Nat) : List Char := natDigitsAux (n + 1) n

/-- Python `str(n)` for an integer: minus sign for negatives followed by
the decimal digits, no plus sign, no leading zeros. -/
def pyStr (n : Int) : String :=
  if n < 0 then ⟨'-' :: natDigits n.natAbs⟩ else ⟨natDigits n.natAbs⟩

lemma digitChar_facts (d : Nat) (hd : d < 10) :
    (digitChar d).isDigit = true ∧ (digitChar d).isAlpha = false ∧
    (digitChar d).toNat = 48 + d ∧ digitChar d ≠ 'G' ∧ digitChar d ≠ 'M' ∧
    digitChar d ≠ '-' ∧ digitChar d ≠ '+' := by
  interval_cases d <;> exact ⟨rfl, rfl, rfl, by decide, by decide, by decide, by decide⟩

lemma natDigitsAux_mem (fuel n : Nat) (c : Char) (hc : c ∈ natDigitsAux fuel n) :
    ∃ d, d < 10 ∧ c = digitChar d := by
  induction fuel generalizing n with
  | zero => simp [natDigitsAux] at hc
  | succ fuel ih =>
    rw [natDigitsAux] at hc
    by_cases h : n < 10
    · rw [if_pos h] at hc
      simp at hc
      exact ⟨n, h, hc⟩
    · rw [if_neg h] at hc
      rcases List.mem_append.mp hc with h1 | h1
      · exact ih _ h1
      · simp at h1
        exact ⟨n % 10, Nat.mod_lt _ (by omega), h1⟩

lemma natDigitsAux_ne_nil (fuel n : Nat) (hf : 0 < fuel) :
    natDigitsAux fuel n ≠ [] := by
  cases fuel with
  | zero => omega
  | succ fuel =>
    rw [natDigitsAux]
    by_cases h : n < 10
    · rw [if_pos h]; simp
    · rw [if_neg h]; simp

lemma digitsVal_append_single (ds : List Char) (c : Char) :
    digitsVal (ds ++ [c]) = 10 * digitsVal ds + (c.toNat - 48) := by
  unfold digitsVal
  rw [List.foldl_append]
  rfl

lemma natDigitsAux_val (fuel n : Nat) (h : n < fuel) :
    digitsVal (natDigitsAux fuel n) = n := by
  induction fuel generalizing n with
  | zero => omega
  | succ fuel ih =>
    rw [natDigitsAux]
    by_cases hn : n < 10
    · rw [if_pos hn]
      have := (digitChar_facts n hn).2.2.1
      unfold digitsVal
      simp [this]
    · rw [if_neg hn]
      rw [digitsVal_append_single]
      have hdiv : n / 10 < n := Nat.div_lt_self (by omega) (by omega)
      rw [ih (n / 10) (by omega)]
      have := (digitChar_facts (n % 10) (Nat.mod_lt _ (by omega))).2.2.1
      rw [this]
      omega

lemma natDigits_mem (n : Nat) (c : Char) (hc : c ∈ natDigits n) :
    ∃ d, d < 10 ∧ c = digitChar d :=
  natDigitsAux_mem (n + 1) n c hc

lemma natDigits_ne_nil (n : Nat) : natDigits n ≠ [] :=
  natDigitsAux_ne_nil (n + 1) n (Nat.succ_pos n)

lemma natDigits_val (n : Nat) : digitsVal (natDigits n) = n :=
  natDigitsAux_val (n + 1) n (Nat.lt_succ_self n)

lemma parseNatDigits_natDigits (n : Nat) :
    parseNatDigits (natDigits n) = some n := by
  unfold parseNatDigits
  rw [if_pos, natDigits_val]
  constructor
  · exact natDigits_ne_nil n
  · rw [List.all_eq_true]
    intro c hc
    obtain ⟨d, hd, rfl⟩ := natDigits_mem n c hc
    exact (digitChar_facts d hd).1

lemma pyInt_cons (c : Char) (rest : List Char) :
    pyInt ⟨c :: rest⟩ =
      if c = '-' then (parseNatDigits rest).map (fun n => -(n : Int))
      else if c = '+' then (parseNatDigits rest).map (fun n => (n : Int))
      else (parseNatDigits (c :: rest)).map (fun n => (n : Int)) := rfl

lemma pyInt_pyStr (n : Int) : pyInt (pyStr n) = some n := by
  by_cases hn : n < 0
  · have hs : pyStr n = ⟨'-' :: natDigits n.natAbs⟩ := by
      unfold pyStr; rw [if_pos hn]
    rw [hs, pyInt_cons, if_pos rfl, parseNatDigits_natDigits]
    have habs : ((n.natAbs : Int)) = -n := by omega
    simp [habs]
  · obtain ⟨c, rest, hcons⟩ : ∃ c rest, natDigits n.natAbs = c :: rest := by
      cases h : natDigits n.natAbs with
      | nil => exact absurd h (natDigits_ne_nil _)
      | cons c rest => exact ⟨c, rest, rfl⟩
    have hs : pyStr n = ⟨c :: rest⟩ := by
      unfold pyStr; rw [if_neg hn, hcons]
    obtain ⟨d, hd, hcd⟩ := natDigits_mem n.natAbs c (by rw [hcons]; simp)
    have hfacts := digitChar_facts d hd
    rw [hs, pyInt_cons, if_neg (hcd ▸ hfacts.2.2.2.2.2.1),
      if_neg (hcd ▸ hfacts.2.2.2.2.2.2), ← hcons,
      parseNatDigits_natDigits]
    have habs : ((n.natAbs : Int)) = n := by omega
    simp [habs]

lemma data_append (s t : String) : (s ++ t).data = s.data ++ t.data := rfl

lemma containsSub_append_self (l needle : List Char) (h : needle ≠ []) :
    containsSub (l ++ needle) needle = true := by
  induction l with
  | nil =>
    cases needle with
    | nil => exact absurd rfl h
    | cons c t => simp [containsSub, List.isPrefixOf_iff_prefix]
  | cons a l ih =>
    rw [List.cons_append, containsSub, ih, Bool.or_true]

lemma containsSub_eq_false_of_head_not_mem (hay : List Char) (g : Char)
    (ns : List Char) (h : ∀ c ∈ hay, c ≠ g) :
    containsSub hay (g :: ns) = false := by
  induction hay with
  | nil => rfl
  | cons a t ih =>
    rw [containsSub, List.isPrefixOf_cons₂]
    have hag : (g == a) = false := by
      rw [beq_eq_false_iff_ne]
      exact fun hg => (h a (by simp)) hg.symm
    rw [hag, Bool.false_and, Bool.false_or]
    exact ih (fun c hc => h c (by simp [hc]))

lemma pyStr_chars (n : Int) (c : Char) (hc : c ∈ (pyStr n).data) :
    c = '-' ∨ ∃ d, d < 10 ∧ c = digitChar d := by
  unfold pyStr at hc
  by_cases hn : n < 0
  · rw [if_pos hn] at hc
    rcases List.mem_cons.mp hc with rfl | hmem
    · exact Or.inl rfl
    · exact Or.inr (natDigits_mem _ _ hmem)
  · rw [if_neg hn] at hc
    exact Or.inr (natDigits_mem _ _ hc)

lemma pyStr_chars_not_GM (n : Int) (c : Char) (hc : c ∈ (pyStr n).data) :
    c ≠ 'G' ∧ c ≠ 'M' ∧ c.isAlpha = false := by
  rcases pyStr_chars n c hc with rfl | ⟨d, hd, rfl⟩
  · exact ⟨by decide, by decide, by decide⟩
  · have hf := digitChar_facts d hd
    exact ⟨hf.2.2.2.1, hf.2.2.2.2.1, hf.2.1⟩

lemma stripAlpha_pyStr_append (n : Int) (t : String)
    (ht : t.data.filter (fun c => !c.isAlpha) = []) :
    stripAlpha (pyStr n ++ t) = pyStr n := by
  unfold stripAlpha
  rw [data_append, List.filter_append, ht, List.append_nil,
    List.filter_eq_self.mpr]
  intro c hc
  rw [Bool.not_eq_eq_eq_not, Bool.not_true]
  exact (pyStr_chars_not_GM n c hc).2.2

lemma stripAlpha_pyStr (n : Int) : stripAlpha (pyStr n) = pyStr n := by
  unfold stripAlpha
  rw [List.filter_eq_self.mpr]
  intro c hc
  rw [Bool.not_eq_eq_eq_not, Bool.not_true]
  exact (pyStr_chars_not_GM n c hc).2.2

lemma parse_cache_capacity_some (s : String) :
    parse_cache_capacity (some s) =
      if containsSub s.data ['G', 'i', 'B'] then
        (pyInt (stripAlpha s)).map (fun n => n * (1000 * 1000 * 1000))
      else if containsSub s.data ['M', 'i', 'B'] then
        (pyInt (stripAlpha s)).map (fun n => n * (1000 * 1000))
      else pyInt s := rfl

/-- Claim C4: cache-capacity parsing uses decimal multipliers: for every
integer `n`, `str(n) + "GiB"` parses to `n * 1000000000` bytes and
`str(n) + "MiB"` parses to `n * 1000000` bytes, and a bare integer string
parses to that integer as raw bytes; in particular `"2GiB"` yields
2000000000, `"500MiB"` yields 500000000, and `"12345"` yields 12345. -/
theorem cache_capacity_decimal_multipliers (n : Int) :
    parse_cache_capacity (some (pyStr n ++ "GiB")) = some (n * 1000000000) ∧
    parse_cache_capacity (some (pyStr n ++ "MiB")) = some (n * 1000000) ∧
    parse_cache_capacity (some (pyStr n)) = some n ∧
    parse_cache_capacity (some "2GiB") = some 2000000000 ∧
    parse_cache_capacity (some "500MiB") = some 500000000 ∧
    parse_cache_capacity (some "12345") = some 12345 := by
  refine ⟨?_, ?_, ?_, by decide, by decide, by decide⟩
  · have hGd : (pyStr n ++ "GiB").data = (pyStr n).data ++ ['G', 'i', 'B'] := rfl
    have h1 : containsSub (pyStr n ++ "GiB").data ['G', 'i', 'B'] = true := by
      rw [hGd]
      exact containsSub_append_self _ _ (by simp)
    rw [parse_cache_capacity_some, if_pos h1,
      stripAlpha_pyStr_append n "GiB" (by decide), pyInt_pyStr]
    simp only [Option.map_some']
    norm_num
  · have hMd : (pyStr n ++ "MiB").data = (pyStr n).data ++ ['M', 'i', 'B'] := rfl
    have hG : containsSub ((pyStr n).data ++ ['M', 'i', 'B']) ['G', 'i', 'B'] = false := by
      apply containsSub_eq_false_of_head_not_mem
      intro c hc
      rcases List.mem_append.mp hc with hc1 | hc1
      · exact (pyStr_chars_not_GM n c hc1).1
      · simp at hc1
        rcases hc1 with rfl | rfl | rfl <;> decide
    have hM : containsSub (pyStr n ++ "MiB").data ['M', 'i', 'B'] = true := by
      rw [hMd]
      exact containsSub_append_self _ _ (by simp)
    rw [parse_cache_capacity_some, if_neg (by simp [hMd, hG]), if_pos hM,
      stripAlpha_pyStr_append n "MiB" (by decide), pyInt_pyStr]
    simp only [Option.map_some']
    norm_num
  · have hG : containsSub (pyStr n).data ['G', 'i', 'B'] = false :=
      containsSub_eq_false_of_head_not_mem _ _ _
        (fun c hc => (pyStr_chars_not_GM n c hc).1)
    have hM : containsSub (pyStr n).data ['M', 'i', 'B'] = false :=
      containsSub_eq_false_of_head_not_mem _ _ _
        (fun c hc => (pyStr_chars_not_GM n c hc).2.1)
    rw [parse_cache_capacity_some, if_neg (by simp [hG]), if_neg (by simp [hM]),
      pyInt_pyStr]

/-- Claim C5 counterexample: the empty capacity string does NOT parse to 0;
`int('')` raises `ValueError` (modelled as `none`), so
`parse_cache_capacity (some "")` is an error rather than `some 0`. -/
theorem cache_capacity_empty_counterexample :
    parse_cache_capacity (some "") ≠ some 0 := by decide

/-- Claim C5 (amended): an absent cache-capacity specification parses to 0
(cache disabled); the empty string is NOT parsed to 0 but raises an error,
because it reaches the bare `int` branch and `int('')` fails. -/
theorem cache_capacity_absent_is_zero_empty_is_error :
    parse_cache_capacity none = some 0 ∧ parse_cache_capacity (some "") = none := by
  decide

lemma joinChunks_nil : joinChunks [] = "" := rfl

lemma joinChunks_cons (c : String) (cs : List String) :
    joinChunks (c :: cs) = c ++ joinChunks cs := rfl

lemma generateLoop_no_stop (stopAt : Nat → Bool) (chunks : List String)
    (h : ∀ j, stopAt j = false) :
    ∀ i, generateLoop stopAt i chunks = (joinChunks chunks, chunks) := by
  induction chunks with
  | nil => intro i; rfl
  | cons c cs ih =>
    intro i
    rw [generateLoop, h i]
    simp only [Bool.false_eq_true, if_false, ih (i + 1), joinChunks_cons]

lemma generateLoop_stop_after (stopAt : Nat → Bool) (chunks : List String) :
    ∀ (K i : Nat), (∀ j, j < K → stopAt (i + j) = false) → stopAt (i + K) = true →
    generateLoop stopAt i chunks = (joinChunks (chunks.take K), chunks.take K) := by
  induction chunks with
  | nil => intro K i _ _; simp [generateLoop, joinChunks_nil]
  | cons c cs ih =>
    intro K i h1 h2
    cases K with
    | zero =>
      have h0 : stopAt i = true := by simpa using h2
      rw [generateLoop, h0]
      simp [joinChunks_nil]
    | succ K =>
      have h0 : stopAt i = false := by simpa using h1 0 (Nat.succ_pos K)
      rw [generateLoop, h0]
      simp only [Bool.false_eq_true, if_false]
      have hrec := ih K (i + 1)
        (fun j hj => by
          have := h1 (j + 1) (by omega)
          rwa [show i + (j + 1) = i + 1 + j by omega] at this)
        (by rwa [show i + 1 + K = i + (K + 1) by omega])
      rw [hrec]
      simp [joinChunks_cons]

/-- Claim C1: `generate` returns exactly the concatenation, in arrival
order, of the text fields of the chunks consumed from the backend stream
(lines 145-154): with the cancellation flag never set it returns the
concatenation of all chunks and invokes the callback once per chunk with
that chunk's text; with the flag set before any chunk is consumed it
returns the empty string; with the flag set after K chunks it returns
exactly the concatenation of those K chunks (partial output kept). -/
theorem generate_stream_consumption (e : ImportEnv) (cpuFlag : Bool)
    (m : ModelLike) (state : GenState) (maxPromptLen : Nat)
    (stopAt : Nat → Bool) (prompt : String) (chunks : List String) (K : Nat) :
    generate e cpuFlag m state maxPromptLen stopAt prompt =
      generateLoop stopAt 0
        (m.create_completion (generateRequest e cpuFlag m state maxPromptLen prompt)) ∧
    ((∀ j, stopAt j = false) →
      generateLoop stopAt 0 chunks = (joinChunks chunks, chunks)) ∧
    (stopAt 0 = true → (generateLoop stopAt 0 chunks).1 = "") ∧
    ((∀ j, j < K → stopAt j = false) → stopAt K = true →
      generateLoop stopAt 0 chunks =
        (joinChunks (chunks.take K), chunks.take K)) := by
  refine ⟨rfl, fun h => generateLoop_no_stop stopAt chunks h 0, ?_, ?_⟩
  · intro h
    have h0 := generateLoop_stop_after stopAt chunks 0 0
      (fun j hj => absurd hj (by omega)) (by simpa using h)
    rw [h0]
    rfl
  · intro h1 h2
    exact generateLoop_stop_after stopAt chunks K 0
      (fun j hj => by simpa using h1 j hj) (by simpa using h2)

theorem generate_stream_consumption_witness :
    generateLoop (fun i => decide (1 ≤ i)) 0 ["ab", "cd", "ef"] =
      (joinChunks (["ab", "cd", "ef"].take 1), ["ab", "cd", "ef"].take 1) :=
  (generate_stream_consumption ⟨false, false, false, false⟩ false
    ⟨fun _ => [], fun _ => "", 0, fun _ => []⟩
    ⟨0, 0, 0, 0, 0, 0, 0, 0, 0, false⟩ 0 (fun i => decide (1 ≤ i)) ""
    ["ab", "cd", "ef"] 1).2.2.2 (by decide) (by decide)

/-- Claim C2 counterexample: with a maximum prompt length of 0, the Python
slice `prompt[-0:]` at line 125 equals `prompt[0:]` and keeps the ENTIRE
token sequence, so the truncated prompt exceeds 0 tokens: the claim's
bound fails at N = 0. -/
theorem truncation_zero_counterexample :
    sliceLastN [1, 2, 3] 0 = [1, 2, 3] ∧
    ¬((sliceLastN [1, 2, 3] 0).length ≤ 0) := by decide

/-- Claim C2 (amended): for every maximum prompt length N ≥ 1, the prompt
sent to the backend is built from exactly the trailing N tokens of the
encoded sequence, in original order (right-aligned truncation), and the
truncated sequence never exceeds N tokens; at N = 0 the `[-0:]` slice
instead keeps everything. -/
theorem truncation_keeps_trailing (tokens : List Int) (N : Nat) (hN : 1 ≤ N) :
    sliceLastN tokens N = tokens.drop (tokens.length - N) ∧
    (sliceLastN tokens N).length ≤ N ∧
    tokens = tokens.take (tokens.length - N) ++ sliceLastN tokens N ∧
    (N ≤ tokens.length → (sliceLastN tokens N).length = N) ∧
    ∀ (e : ImportEnv) (cpuFlag : Bool) (m : ModelLike) (state : GenState)
      (prompt : String),
      (generateRequest e cpuFlag m state N prompt).prompt =
        m.detokenize (sliceLastN (m.tokenize prompt) N) := by
  have hdrop : sliceLastN tokens N = tokens.drop (tokens.length - N) := by
    unfold sliceLastN
    rw [if_neg (by omega)]
  refine ⟨hdrop, ?_, ?_, ?_, fun _ _ _ _ _ => rfl⟩
  · rw [hdrop, List.length_drop]
    omega
  · rw [hdrop]
    exact (List.take_append_drop _ _).symm
  · intro h
    rw [hdrop, List.length_drop]
    omega

theorem truncation_keeps_trailing_witness :
    sliceLastN [1, 2, 3] 2 = [2, 3] := by
  have h := truncation_keeps_trailing [1, 2, 3] 2 (by decide)
  rw [h.1]
  decide

/-- Claim C3 counterexample: when the optional CPU legacy module import at
lines 16-19 fails (so `llama_cpp_ggml` is bound to `llama_cpp`), the
(no acceleration, legacy) entry of the section 4.1 table is violated: the
resolver returns the CPU modern module where the table requires
CPU-legacy. -/
theorem backend_resolution_counterexample :
    llama_cpp_lib ⟨false, false, false, false⟩ false (some false) =
      some Variant.cpuModern ∧
    specResolution false false false false = Variant.cpuLegacy ∧
    Variant.cpuModern ≠ Variant.cpuLegacy := by decide

/-- Claim C3 (amended): the resolver deterministically returns the table
entry of `codeResolution` and never fails; the table differs from the
section 4.1 table in that the accelerated branch is gated on the
accelerated-MODERN module having loaded (an accelerated-legacy module that
loaded while accelerated-modern did not is ignored), and every entry
resolving to a legacy module silently degrades to its modern sibling when
that legacy module failed to import. -/
theorem backend_resolution_table (e : ImportEnv) (cpuFlag : Bool)
    (model_file : Option Bool) :
    llama_cpp_lib e cpuFlag model_file =
      some (codeResolution e cpuFlag (model_file.getD true)) ∧
    (llama_cpp_lib e cpuFlag model_file).isSome = true := by
  obtain ⟨hw, gl, cl, gcl⟩ := e
  cases hw <;> cases gl <;> cases cl <;> cases gcl <;> cases cpuFlag <;>
    rcases model_file with _ | (_ | _) <;> decide

/-- Claim C6: whenever `ban_eos_token` is set in the generation state,
`generate` passes the backend a logits-processor list holding exactly the
end-of-sequence-banning step partially applied to the model's
end-of-sequence token id (lines 140-142), and that step forces the logit
at that id to negative infinity on any logits vector at every decoding
step; when the flag is unset, no logits processor is passed. -/
theorem ban_eos_processor_passed (e : ImportEnv) (cpuFlag : Bool)
    (m : ModelLike) (state : GenState) (maxPromptLen : Nat) (prompt : String) :
    (state.ban_eos_token = true →
      (generateRequest e cpuFlag m state maxPromptLen prompt).logits_processor =
        some [ban_eos_logits_processor m.token_eos] ∧
      ∀ (input_ids : List Int) (logits : List Logit),
        m.token_eos < logits.length →
          (ban_eos_logits_processor m.token_eos input_ids logits)[m.token_eos]? =
            some Logit.negInf) ∧
    (state.ban_eos_token = false →
      (generateRequest e cpuFlag m state maxPromptLen prompt).logits_processor =
        none) := by
  constructor
  · intro h
    constructor
    · simp [generateRequest, h]
    · intro input_ids logits hlen
      unfold ban_eos_logits_processor
      simp [List.getElem?_set_self hlen]
  · intro h
    simp [generateRequest, h]

theorem ban_eos_processor_passed_witness :
    (generateRequest ⟨false, false, false, false⟩ false
        ⟨fun _ => [], fun _ => "", 0, fun _ => []⟩
        ⟨0, 0, 0, 0, 0, 0, 0, 0, 0, true⟩ 0 "").logits_processor =
      some [ban_eos_logits_processor 0] ∧
    (ban_eos_logits_processor 0 [] [Logit.val 1])[0]? = some Logit.negInf := by
  have h := ban_eos_processor_passed ⟨false, false, false, false⟩ false
    ⟨fun _ => [], fun _ => "", 0, fun _ => []⟩ ⟨0, 0, 0, 0, 0, 0, 0, 0, 0, true⟩ 0 ""
  exact ⟨(h.1 rfl).1, (h.1 rfl).2 [] [Logit.val 1] (by decide)⟩

lemma joinChunks_append (a b : List String) :
    joinChunks (a ++ b) = joinChunks a ++ joinChunks b := by
  induction a with
  | nil => simp [joinChunks_nil]
  | cons c cs ih =>
    rw [List.cons_append, joinChunks_cons, joinChunks_cons, ih,
      String.append_assoc]

lemma streamReplies_length (toks : List String) :
    ∀ acc, (streamReplies acc toks).length = toks.length := by
  induction toks with
  | nil => intro acc; rfl
  | cons t rest ih =>
    intro acc
    rw [streamReplies]
    simp [ih]

lemma streamReplies_get (toks : List String) :
    ∀ acc i, i < toks.length →
      (streamReplies acc toks)[i]? =
        some (acc ++ joinChunks (toks.take (i + 1))) := by
  induction toks with
  | nil => intro acc i h; simp at h
  | cons t rest ih =>
    intro acc i h
    rw [streamReplies]
    cases i with
    | zero =>
      rw [List.getElem?_cons_zero, List.take_succ_cons, List.take_zero,
        joinChunks_cons, joinChunks_nil, String.append_empty]
    | succ i =>
      rw [List.getElem?_cons_succ, ih (acc ++ t) i (by simpa using h),
        List.take_succ_cons, joinChunks_cons, String.append_assoc]

/-- Claim C7: the items pulled from the streaming adapter are cumulative:
the adapter yields, after each chunk text that `generate` pushes through
its callback, the concatenation of all chunk texts so far; hence the i-th
pulled item is the concatenation of the first i+1 chunks, each item has
the previous one as a prefix, and item lengths are non-decreasing. -/
theorem streaming_adapter_cumulative (e : ImportEnv) (cpuFlag : Bool)
    (m : ModelLike) (state : GenState) (maxPromptLen : Nat)
    (stopAt : Nat → Bool) (prompt : String) (toks : List String) (i : Nat) :
    generate_with_streaming e cpuFlag m state maxPromptLen stopAt prompt =
      streamReplies "" (generate e cpuFlag m state maxPromptLen stopAt prompt).2 ∧
    (streamReplies "" toks).length = toks.length ∧
    (i < toks.length →
      (streamReplies "" toks)[i]? = some (joinChunks (toks.take (i + 1)))) ∧
    (i + 1 < toks.length →
      ∃ t, (streamReplies "" toks)[i + 1]? =
          some (joinChunks (toks.take (i + 1)) ++ t) ∧
        (joinChunks (toks.take (i + 1))).length ≤
          (joinChunks (toks.take (i + 1)) ++ t).length) := by
  refine ⟨rfl, streamReplies_length toks "", ?_, ?_⟩
  · intro h
    have hg := streamReplies_get toks "" i h
    simpa using hg
  · intro h
    have hg := streamReplies_get toks "" (i + 1) h
    refine ⟨joinChunks (toks[i + 1]?.toList), ?_, ?_⟩
    · rw [hg, String.empty_append, List.take_succ, joinChunks_append]
    · rw [String.length_append]
      omega

theorem streaming_adapter_cumulative_witness :
    (streamReplies "" ["x", "yz"])[1]? =
      some (joinChunks (["x", "yz"].take 2)) := by
  have h := streaming_adapter_cumulative ⟨false, false, false, false⟩ false
    ⟨fun _ => [], fun _ => "", 0, fun _ => []⟩ ⟨0, 0, 0, 0, 0, 0, 0, 0, 0, false⟩ 0
    (fun _ => false) "" ["x", "yz"] 1
  exact h.2.2.1 (by decide)

/-- Claim C8 counterexample: `__del__` (lines 52-53) calls
`self.model.__del__()` unconditionally, with no released-flag: releasing
the same handle a second time tears the backend model down again, so a
second release attempt is NOT prevented and the teardown does not run
exactly once. -/
theorem release_twice_counterexample :
    (LlamaCppModel.init.del.del).modelDels = 2 ∧
    (LlamaCppModel.init.del.del).modelDels ≠ 1 := by decide

/-- Claim C8 (amended): every invocation of the handle's finalizer
triggers exactly one more teardown of the owned backend model, with no
guard: n release attempts produce n backend teardowns, double release is
not prevented, and the `initialized` flag written by `__init__` is never
consulted or changed by release. -/
theorem release_unguarded (h : LlamaCppModel) :
    h.del.modelDels = h.modelDels + 1 ∧
    h.del.initialized = h.initialized ∧
    LlamaCppModel.init.modelDels = 0 ∧
    LlamaCppModel.init.initialized = false :=
  ⟨rfl, rfl, rfl, rfl⟩

/-- Claim C9: the end-of-sequence-banning logits processor ignores its
token-ids-so-far argument entirely, preserves the length of the logits
vector, and leaves every entry other than the one at the end-of-sequence
index unchanged (in the pure embedding, returning the same mutated vector
is rendered as: the result is the input vector updated only at that
index). -/
theorem ban_eos_frame (eos : Nat) (input_ids input_ids2 : List Int)
    (logits : List Logit) :
    ban_eos_logits_processor eos input_ids logits =
      ban_eos_logits_processor eos input_ids2 logits ∧
    ban_eos_logits_processor eos input_ids logits = logits.set eos Logit.negInf ∧
    (ban_eos_logits_processor eos input_ids logits).length = logits.length ∧
    ∀ j, j ≠ eos →
      (ban_eos_logits_processor eos input_ids logits)[j]? = logits[j]? := by
  refine ⟨rfl, rfl, by simp [ban_eos_logits_processor], fun j hj => ?_⟩
  unfold ban_eos_logits_processor
  simp [List.getElem?_set_ne (fun he => hj he.symm)]

theorem ban_eos_frame_witness :
    (ban_eos_logits_processor 0 [] [Logit.val 1, Logit.val 2])[1]? =
      some (Logit.val 2) := by
  have h := ban_eos_frame 0 [] [5] [Logit.val 1, Logit.val 2]
  rw [h.2.2.2 1 (by decide)]
  rfl

/-- Claim C10: called without a model file path, the resolver defaults the
format family to modern/GGUF (line 36), so the module that `generate`
takes its logits-processor container from (line 119, `llama_cpp_lib()`
with no argument) is always the modern-family resolution and never a
legacy variant, regardless of the loaded model's actual family. -/
theorem generate_lps_module_modern (e : ImportEnv) (cpuFlag : Bool) :
    generateLogitsLib e cpuFlag = llama_cpp_lib e cpuFlag (some true) ∧
    generateLogitsLib e cpuFlag ≠ some Variant.cpuLegacy ∧
    generateLogitsLib e cpuFlag ≠ some Variant.accelLegacy ∧
    ∀ (m : ModelLike) (state : GenState) (maxPromptLen : Nat) (prompt : String),
      (generateRequest e cpuFlag m state maxPromptLen prompt).lpsModule =
        generateLogitsLib e cpuFlag := by
  refine ⟨rfl, ?_, ?_, fun _ _ _ _ => rfl⟩ <;>
    · obtain ⟨hw, gl, cl, gcl⟩ := e
      cases hw <;> cases gl <;> cases cl <;> cases gcl <;> cases cpuFlag <;> decide

end LlamaCpp
